import Mathlib

/-
Verification of the simple HTTP/1.1 file server in src/http_server.py.

The embedding models Python strings as lists of characters (`Str`), raw
bytes as lists of naturals (`Bytes`), and the filesystem as an association
list from full path strings to file contents (`Fs`).  Socket output is
modelled as the list of `sendall` payloads.  Python exceptions are values
of `PyErr`; a function that can raise returns `Except PyErr _`.
-/

set_option maxRecDepth 10000

abbrev Str : Type := List Char

abbrev Bytes : Type := List Nat

abbrev Fs : Type := List (Str × Bytes)

/-- Character data of a Lean string literal, used to write `Str` constants. -/
def strOf (s : String) : Str := s.data

def crlf : Str := ['\r', '\n']

def crlfcrlf : Str := ['\r', '\n', '\r', '\n']

def spaceStr : Str := [' ']

/-- Decimal representation of a natural number, as Python's str(n). -/
def natStr (n : Nat) : Str := (Nat.repr n).data

/-- leadsWith pat s: s starts with pat (Python str.startswith). -/
def leadsWith : Str → Str → Bool
  | [], _ => true
  | _ :: _, [] => false
  | a :: as, b :: bs => a = b && leadsWith as bs

/-- First occurrence of a (nonempty) pattern: some (before, after) where
s = before ++ pat ++ after and pat does not occur earlier; none when pat
does not occur.  This is the engine behind Python str.split / in. -/
def breakOn (pat : Str) : Str → Option (Str × Str)
  | [] => none
  | c :: cs =>
    if leadsWith pat (c :: cs) then some ([], (c :: cs).drop pat.length)
    else (breakOn pat cs).map (fun pq => (c :: pq.1, pq.2))

/-- s.split(pat)[0]: the part before the first occurrence of pat, or all of
s when pat does not occur.  Also s.split(pat, 1)[0]. -/
def firstPiece (pat s : Str) : Str :=
  match breakOn pat s with
  | none => s
  | some pq => pq.1

/-- Python's (pat in s). -/
def containsSub (pat s : Str) : Bool := (breakOn pat s).isSome

/-- Python's s.endswith(pat). -/
def endsWith (pat s : Str) : Bool := leadsWith pat.reverse s.reverse

/-- Filesystem lookup: some content iff a regular file exists at exactly
this path string (os.path.isfile / os.path.getsize / open succeed). -/
def lookupFs : Fs → Str → Option Bytes
  | [], _ => none
  | (p, c) :: rest, q => if p = q then some c else lookupFs rest q

/-- UTF-8 encoding of one character (Python str.encode). -/
def utf8EncodeChar (c : Char) : Bytes :=
  let n := c.toNat
  if n < 128 then [n]
  else if n < 2048 then [192 + n / 64, 128 + n % 64]
  else if n < 65536 then [224 + n / 4096, 128 + n / 64 % 64, 128 + n % 64]
  else [240 + n / 262144, 128 + n / 4096 % 64, 128 + n / 64 % 64, 128 + n % 64]

/-- UTF-8 encoding of a string (Python str.encode). -/
def utf8Encode (s : Str) : Bytes := (s.map utf8EncodeChar).flatten

/-- A UTF-8 continuation byte. -/
def contByte (b : Nat) : Bool := 128 ≤ b && b < 192

/-- Allowed second byte of a 3-byte sequence (excludes overlong forms and
surrogates, as Python's strict decoder does). -/
def cont2 (b b2 : Nat) : Bool :=
  if b = 224 then decide (160 ≤ b2) && decide (b2 < 192)
  else if b = 237 then decide (128 ≤ b2) && decide (b2 < 160)
  else contByte b2

/-- Allowed second byte of a 4-byte sequence (excludes overlong forms and
code points above U+10FFFF). -/
def cont4 (b b2 : Nat) : Bool :=
  if b = 240 then decide (144 ≤ b2) && decide (b2 < 192)
  else if b = 244 then decide (128 ≤ b2) && decide (b2 < 144)
  else contByte b2

/-- One step of strict UTF-8 decoding: given the first byte and the bytes
after it, the decoded character and the bytes left, or none on an invalid
or truncated sequence. -/
def utf8DecodeStep (b : Nat) (rest : Bytes) : Option (Char × Bytes) :=
  if b < 128 then some (Char.ofNat b, rest)
  else if b < 194 then none
  else if b < 224 then
    rest.head?.bind fun b2 =>
      if contByte b2 then some (Char.ofNat ((b - 192) * 64 + (b2 - 128)), rest.tail) else none
  else if b < 240 then
    rest.head?.bind fun b2 => rest.tail.head?.bind fun b3 =>
      if cont2 b b2 && contByte b3 then
        some (Char.ofNat ((b - 224) * 4096 + (b2 - 128) * 64 + (b3 - 128)), rest.tail.tail)
      else none
  else if b < 245 then
    rest.head?.bind fun b2 => rest.tail.head?.bind fun b3 => rest.tail.tail.head?.bind fun b4 =>
      if cont4 b b2 && contByte b3 && contByte b4 then
        some (Char.ofNat ((b - 240) * 262144 + (b2 - 128) * 4096 + (b3 - 128) * 64 + (b4 - 128)),
          rest.tail.tail.tail)
      else none
  else none

/-- Fuelled strict UTF-8 decoding; every decode step consumes at least the
leading byte, so fuel equal to the byte count never runs out. -/
def utf8DecodeF : Nat → Bytes → Option Str
  | _, [] => some []
  | 0, _ :: _ => none
  | fuel + 1, b :: rest =>
    match utf8DecodeStep b rest with
    | none => none
    | some (c, rest2) => (utf8DecodeF fuel rest2).map (fun s => c :: s)

/-- Strict UTF-8 decoding (Python bytes.decode): none models a raised
UnicodeDecodeError, in particular on a truncated multi-byte sequence. -/
def utf8Decode (l : Bytes) : Option Str := utf8DecodeF l.length l

/-- The chunks produced by the read-and-send loop of send_response
(f.read(n) while nonempty), fuelled by the content length. -/
def chunksRead : Nat → Nat → Bytes → List Bytes
  | 0, _, _ => []
  | _ + 1, _, [] => []
  | fuel + 1, n, b :: bs => (b :: bs.take (n - 1)) :: chunksRead fuel n (bs.drop (n - 1))

def chunksOf (n : Nat) (l : Bytes) : List Bytes := chunksRead l.length n l

/-- Python exceptions that the server's code paths can raise. -/
inductive PyErr : Type where
  | fileNotFound
  | typeError
  | valueError
  | indexError
  | unicodeDecodeError
deriving DecidableEq

def statusOk : Str := strOf "HTTP/1.1 200 OK\r\n"

def statusNotFound : Str := strOf "HTTP/1.1 404 Not Found\r\n"

def statusMethodNotAllowed : Str := strOf "HTTP/1.1 405 Method Not Allowed \r\n"

def statusCreated : Str := strOf "HTTP/1.1 201 Created\r\n\r\n"

def contentLengthLine (n : Nat) : Str := strOf "Content-Length: " ++ natStr n ++ crlf ++ crlf

/-- send_response (src/http_server.py lines 4-36).  filePath none models the
Python value None (the 405 branch): root_folder + None raises TypeError,
which the except FileNotFoundError clause does not catch.  On success the
result is the list of sendall payloads: the encoded header followed by the
file content in 1024-byte chunks. -/
def sendResponse (filePath : Option Str) (header : Str) (rootFolder : Str) (fs : Fs) :
    Except PyErr (List Bytes) :=
  match filePath with
  | none => .error .typeError
  | some fp =>
    match lookupFs fs (rootFolder ++ fp) with
    | some content =>
      .ok (utf8Encode (header ++ contentLengthLine content.length) :: chunksOf 1024 content)
    | none =>
      match lookupFs fs (rootFolder ++ strOf "/404.html") with
      | some content =>
        .ok (utf8Encode (header ++ contentLengthLine content.length) :: chunksOf 1024 content)
      | none => .error .fileNotFound

/-- handle_post_request (lines 39-60).  request.split("\r\n\r\n", 1) into
headers and content; unpacking a one-element split raises ValueError.
headers.split(" ")[1] raises IndexError when headers has no space.  The
body is written (created or truncated) at root+path; lookupFs finds the
newest entry first, so consing models the overwrite.  The response is the
single payload of the bare 201 status line. -/
def handlePostRequest (request : Str) (rootFolder : Str) (fs : Fs) :
    Except PyErr (Fs × List Bytes) :=
  match breakOn crlfcrlf request with
  | none => .error .valueError
  | some (headers, content) =>
    match breakOn spaceStr headers with
    | none => .error .indexError
    | some (_, rest2) =>
      let filePath := firstPiece spaceStr rest2
      .ok ((rootFolder ++ filePath, utf8Encode content) :: fs, [utf8Encode statusCreated])

/-- process_request (lines 63-105).  The first line is request.split("\r\n")[0];
method and request_file are its first two space-separated tokens, and
unpacking fewer than two raises ValueError.  POST delegates; otherwise the
(code, file_path) pair and the header are chosen exactly as in the source's
conditional expressions and handed to sendResponse. -/
def processRequest (request : Str) (rootFolder : Str) (fs : Fs) :
    Except PyErr (Fs × List Bytes) :=
  let lineBeginning := firstPiece crlf request
  match breakOn spaceStr lineBeginning with
  | none => .error .valueError
  | some (method, rest1) =>
    let requestFile := firstPiece spaceStr rest1
    if method = strOf "POST" then
      handlePostRequest request rootFolder fs
    else
      let cp : Nat × Option Str :=
        if method ≠ strOf "GET" then (405, none)
        else if requestFile = strOf "/" then (200, some (strOf "/page.html"))
        else if (lookupFs fs (rootFolder ++ requestFile)).isSome = false then
          (404, some (strOf "/404.html"))
        else (200, some requestFile)
      let header :=
        if cp.1 = 200 then statusOk
        else if cp.1 = 404 then statusNotFound
        else statusMethodNotAllowed
      (sendResponse cp.2 header rootFolder fs).map (fun out => (fs, out))

/-- Result of handle_client_request: the responses sent (one list of
payloads per dispatched request), the filesystem afterwards, and the
exception caught by the per-connection handler, if any. -/
structure LoopOut : Type where
  responses : List (List Bytes)
  fs : Fs
  err : Option PyErr
deriving DecidableEq

/-- handle_client_request's read loop (lines 139-153): extend the buffer by
each received chunk, decode the whole buffer, and when the decoded text
contains the header terminator, dispatch it and clear the buffer.  An
exhausted chunk list or an empty chunk models the peer closing; a raised
exception is caught by the except clause and recorded in err. -/
def handleLoop (rootFolder : Str) : Fs → Bytes → List Bytes → LoopOut
  | fs, _, [] => ⟨[], fs, none⟩
  | fs, buf, chunk :: rest =>
    if chunk = [] then ⟨[], fs, none⟩
    else
      match utf8Decode (buf ++ chunk) with
      | none => ⟨[], fs, some .unicodeDecodeError⟩
      | some dataStr =>
        if containsSub crlfcrlf dataStr then
          match processRequest dataStr rootFolder fs with
          | .error e => ⟨[], fs, some e⟩
          | .ok (fs2, out) =>
            let r := handleLoop rootFolder fs2 [] rest
            ⟨out :: r.responses, r.fs, r.err⟩
        else
          handleLoop rootFolder fs (buf ++ chunk) rest

/-- handle_client_request (lines 128-153), starting from an empty buffer. -/
def handleClientRequest (rootFolder : Str) (fs : Fs) (chunks : List Bytes) : LoopOut :=
  handleLoop rootFolder fs [] chunks

/-! ### Lemmas about the split machinery -/

theorem leadsWith_self_append (p s : Str) : leadsWith p (p ++ s) = true := by
  induction p with
  | nil => rfl
  | cons c cs ih => simp [leadsWith, ih]

theorem breakOn_self_append (pat b : Str) (h : pat ≠ []) :
    breakOn pat (pat ++ b) = some ([], b) := by
  match pat with
  | [] => exact absurd rfl h
  | c :: cs =>
    show breakOn (c :: cs) (c :: (cs ++ b)) = some ([], b)
    rw [breakOn]
    rw [show (c :: (cs ++ b)) = (c :: cs) ++ b from rfl]
    rw [leadsWith_self_append]
    simp [List.drop_left]

theorem breakOn_append_of_no_overlap (pat a b : Str)
    (H : ∀ t u, a = u ++ t → t ≠ [] → leadsWith pat (t ++ (pat ++ b)) = false)
    (hpat : pat ≠ []) :
    breakOn pat (a ++ pat ++ b) = some (a, b) := by
  induction a with
  | nil => simpa using breakOn_self_append pat b hpat
  | cons c cs ih =>
    have hnot : leadsWith pat ((c :: cs) ++ (pat ++ b)) = false :=
      H (c :: cs) [] rfl (by simp)
    rw [show ((c :: cs) ++ pat ++ b) = c :: (cs ++ pat ++ b) by simp]
    rw [breakOn]
    rw [show c :: (cs ++ pat ++ b) = (c :: cs) ++ (pat ++ b) by simp]
    rw [hnot]
    simp only [Bool.false_eq_true, if_false]
    have ih2 := ih (fun t u hu hne => H t (c :: u) (by simp [hu]) hne)
    rw [show (cs ++ pat ++ b) = cs ++ (pat ++ b) by simp] at ih2 ⊢
    rw [ih2]
    rfl

theorem breakOn_append_left (pat a s : Str)
    (H : ∀ t u, a = u ++ t → t ≠ [] → leadsWith pat (t ++ s) = false) :
    breakOn pat (a ++ s) =
      (breakOn pat s).map (fun pq => (a ++ pq.1, pq.2)) := by
  induction a with
  | nil =>
    rw [List.nil_append]
    cases h : breakOn pat s <;> simp
  | cons c cs ih =>
    have hnot : leadsWith pat ((c :: cs) ++ s) = false := H (c :: cs) [] rfl (by simp)
    rw [show ((c :: cs) ++ s) = c :: (cs ++ s) by simp]
    rw [breakOn]
    rw [show c :: (cs ++ s) = (c :: cs) ++ s by simp]
    rw [hnot]
    simp only [Bool.false_eq_true, if_false]
    rw [ih (fun t u hu hne => H t (c :: u) (by simp [hu]) hne)]
    cases h : breakOn pat s <;> simp

theorem head_mem_of_append (a u t2 : Str) (c : Char) (hu : a = u ++ c :: t2) : c ∈ a := by
  subst hu; simp

theorem breakOn_space (a b : Str) (h : ' ' ∉ a) :
    breakOn spaceStr (a ++ spaceStr ++ b) = some (a, b) := by
  apply breakOn_append_of_no_overlap
  · intro t u hu hne
    match t, hne with
    | d :: t2, _ =>
      have hd : d ∈ a := head_mem_of_append a u t2 d hu
      have hne2 : ' ' ≠ d := fun he => h (he ▸ hd)
      show leadsWith [' '] (d :: (t2 ++ _)) = false
      simp [leadsWith, hne2]
  · simp [spaceStr]

theorem breakOn_crlf (a b : Str) (h : '\r' ∉ a) :
    breakOn crlf (a ++ crlf ++ b) = some (a, b) := by
  apply breakOn_append_of_no_overlap
  · intro t u hu hne
    match t, hne with
    | d :: t2, _ =>
      have hd : d ∈ a := head_mem_of_append a u t2 d hu
      have hne2 : '\r' ≠ d := fun he => h (he ▸ hd)
      show leadsWith ['\r', '\n'] (d :: (t2 ++ _)) = false
      simp [leadsWith, hne2]
  · simp [crlf]

theorem breakOn_left_crlf (a s : Str) (h : '\r' ∉ a) :
    breakOn crlf (a ++ s) = (breakOn crlf s).map (fun pq => (a ++ pq.1, pq.2)) := by
  apply breakOn_append_left
  intro t u hu hne
  match t, hne with
  | d :: t2, _ =>
    have hd : d ∈ a := head_mem_of_append a u t2 d hu
    have hne2 : '\r' ≠ d := fun he => h (he ▸ hd)
    show leadsWith ['\r', '\n'] (d :: (t2 ++ _)) = false
    simp [leadsWith, hne2]

theorem containsSub_parts (pat u v : Str) (hpat : pat ≠ []) :
    containsSub pat (u ++ pat ++ v) = true := by
  induction u with
  | nil =>
    unfold containsSub
    rw [List.nil_append, breakOn_self_append pat v hpat]
    rfl
  | cons c cs ih =>
    unfold containsSub at ih ⊢
    rw [show ((c :: cs) ++ pat ++ v) = c :: (cs ++ pat ++ v) by simp]
    rw [breakOn]
    by_cases hl : leadsWith pat (c :: (cs ++ pat ++ v)) = true
    · rw [if_pos hl]; rfl
    · rw [if_neg hl]
      cases hb : breakOn pat (cs ++ pat ++ v) with
      | none => rw [hb] at ih; exact absurd ih (by simp)
      | some pq => simp

theorem endsWith_crlf_append (u : Str) : endsWith crlf (u ++ crlf) = true := by
  unfold endsWith crlf
  simp [List.reverse_append, leadsWith]

theorem breakOn_crlfcrlf (a b : Str)
    (h1 : containsSub crlfcrlf a = false)
    (h2 : endsWith crlf a = false) :
    breakOn crlfcrlf (a ++ crlfcrlf ++ b) = some (a, b) := by
  apply breakOn_append_of_no_overlap
  · intro t u hu hne
    match t with
    | [] => exact absurd rfl hne
    | [c1] =>
      show leadsWith crlfcrlf (c1 :: ('\r' :: '\n' :: '\r' :: '\n' :: b)) = false
      simp [crlfcrlf, leadsWith]
    | [c1, c2] =>
      show leadsWith crlfcrlf (c1 :: c2 :: ('\r' :: '\n' :: '\r' :: '\n' :: b)) = false
      by_cases hc1 : '\r' = c1
      · by_cases hc2 : '\n' = c2
        · subst hc1; subst hc2
          have : endsWith crlf a = true := by
            rw [hu]; exact endsWith_crlf_append u
          rw [this] at h2; exact absurd h2 (by simp)
        · simp [crlfcrlf, leadsWith]
          intro _
          exact hc2
      · simp [crlfcrlf, leadsWith]
        intro hcc
        exact absurd hcc hc1
    | [c1, c2, c3] =>
      show leadsWith crlfcrlf (c1 :: c2 :: c3 :: ('\r' :: '\n' :: '\r' :: '\n' :: b)) = false
      simp [crlfcrlf, leadsWith]
    | c1 :: c2 :: c3 :: c4 :: t5 =>
      show leadsWith crlfcrlf (c1 :: c2 :: c3 :: c4 :: (t5 ++ (crlfcrlf ++ b))) = false
      by_cases hc1 : '\r' = c1
      · by_cases hc2 : '\n' = c2
        · by_cases hc3 : '\r' = c3
          · by_cases hc4 : '\n' = c4
            · subst hc1; subst hc2; subst hc3; subst hc4
              have : containsSub crlfcrlf a = true := by
                rw [hu, show ('\r' :: '\n' :: '\r' :: '\n' :: t5) = crlfcrlf ++ t5 from rfl,
                  show u ++ (crlfcrlf ++ t5) = u ++ crlfcrlf ++ t5 by simp]
                exact containsSub_parts crlfcrlf u t5 (by simp [crlfcrlf])
              rw [this] at h1; exact absurd h1 (by simp)
            · simp [crlfcrlf, leadsWith]
              intro _ _ _
              exact hc4
          · simp [crlfcrlf, leadsWith]
            intro _ _ h3
            exact absurd h3 hc3
        · simp [crlfcrlf, leadsWith]
          intro _ h2x
          exact absurd h2x hc2
      · simp [crlfcrlf, leadsWith]
        intro hcc
        exact absurd hcc hc1
  · simp [crlfcrlf]

theorem firstPiece_crlf (a b : Str) (h : '\r' ∉ a) :
    firstPiece crlf (a ++ crlf ++ b) = a := by
  unfold firstPiece
  rw [breakOn_crlf a b h]

theorem firstPiece_space (p tail : Str) (hp : ' ' ∉ p) :
    firstPiece spaceStr (p ++ spaceStr ++ tail) = p := by
  unfold firstPiece
  rw [breakOn_space p tail hp]

theorem firstPiece_left_crlf (a s : Str) (h : '\r' ∉ a) :
    firstPiece crlf (a ++ s) = a ++ firstPiece crlf s := by
  unfold firstPiece
  rw [breakOn_left_crlf a s h]
  cases breakOn crlf s <;> simp

theorem parse_requestLine (m p tail rest : Str)
    (hm : ' ' ∉ m) (hmr : '\r' ∉ m) (hpr : '\r' ∉ p) (ht : '\r' ∉ tail) :
    breakOn spaceStr
        (firstPiece crlf (m ++ spaceStr ++ p ++ spaceStr ++ tail ++ crlf ++ rest)) =
      some (m, p ++ spaceStr ++ tail) := by
  have ha : '\r' ∉ m ++ spaceStr ++ p ++ spaceStr ++ tail := by
    intro hc
    simp only [List.mem_append, spaceStr, List.mem_singleton] at hc
    rcases hc with ((((hc | hc) | hc) | hc) | hc)
    · exact hmr hc
    · exact absurd hc (by decide)
    · exact hpr hc
    · exact absurd hc (by decide)
    · exact ht hc
  rw [firstPiece_crlf (m ++ spaceStr ++ p ++ spaceStr ++ tail) rest ha]
  rw [show m ++ spaceStr ++ p ++ spaceStr ++ tail = m ++ spaceStr ++ (p ++ spaceStr ++ tail)
    by simp]
  exact breakOn_space m (p ++ spaceStr ++ tail) hm

/-! ### The streamed body is the file's bytes -/

theorem chunksRead_flatten : ∀ (fuel n : Nat) (l : Bytes), l.length ≤ fuel →
    (chunksRead fuel n l).flatten = l
  | 0, _, [], _ => rfl
  | 0, _, _ :: _, h => absurd h (by simp)
  | _ + 1, _, [], _ => rfl
  | fuel + 1, n, b :: bs, h => by
    rw [chunksRead]
    simp only [List.flatten_cons]
    rw [chunksRead_flatten fuel n (bs.drop (n - 1)) (by simp at h ⊢; omega)]
    simp

theorem chunksOf_flatten (n : Nat) (l : Bytes) : (chunksOf n l).flatten = l :=
  chunksRead_flatten l.length n l (Nat.le_refl _)

/-! ### UTF-8 decoding lemmas -/

theorem utf8DecodeStep_ascii (b : Nat) (rest : Bytes) (hb : b < 128) :
    utf8DecodeStep b rest = some (Char.ofNat b, rest) := by
  simp [utf8DecodeStep, hb]

theorem utf8DecodeStep_shrink (b : Nat) (rest : Bytes) (c : Char) (rest2 : Bytes)
    (h : utf8DecodeStep b rest = some (c, rest2)) : rest2.length ≤ rest.length := by
  have htail : ∀ l : Bytes, l.tail.length ≤ l.length := by
    intro l; cases l <;> simp
  unfold utf8DecodeStep at h
  split_ifs at h
  · simp only [Option.some.injEq, Prod.mk.injEq] at h
    rw [← h.2]
  · cases hr : rest with
    | nil => rw [hr] at h; simp at h
    | cons b2 r2 =>
      rw [hr] at h
      simp only [List.head?_cons, Option.some_bind, List.tail_cons] at h
      split_ifs at h
      simp only [Option.some.injEq, Prod.mk.injEq] at h
      rw [← h.2]
      simp
  · cases hr : rest with
    | nil => rw [hr] at h; simp at h
    | cons b2 r2 =>
      rw [hr] at h
      cases hr2 : r2 with
      | nil => rw [hr2] at h; simp at h
      | cons b3 r3 =>
        rw [hr2] at h
        simp only [List.head?_cons, Option.some_bind, List.tail_cons] at h
        split_ifs at h
        simp only [Option.some.injEq, Prod.mk.injEq] at h
        rw [← h.2]
        simp
        omega
  · cases hr : rest with
    | nil => rw [hr] at h; simp at h
    | cons b2 r2 =>
      rw [hr] at h
      cases hr2 : r2 with
      | nil => rw [hr2] at h; simp at h
      | cons b3 r3 =>
        rw [hr2] at h
        cases hr3 : r3 with
        | nil => rw [hr3] at h; simp at h
        | cons b4 r4 =>
          rw [hr3] at h
          simp only [List.head?_cons, Option.some_bind, List.tail_cons] at h
          split_ifs at h
          simp only [Option.some.injEq, Prod.mk.injEq] at h
          rw [← h.2]
          simp
          omega

theorem utf8DecodeF_fuel_eq (f1 : Nat) : ∀ (f2 : Nat) (l : Bytes),
    l.length ≤ f1 → l.length ≤ f2 → utf8DecodeF f1 l = utf8DecodeF f2 l := by
  induction f1 with
  | zero =>
    intro f2 l h1 _
    have hl : l = [] := List.eq_nil_of_length_eq_zero (Nat.le_zero.mp h1)
    subst hl
    cases f2 <;> rfl
  | succ f ih =>
    intro f2 l h1 h2
    cases l with
    | nil => cases f2 <;> rfl
    | cons b rest =>
      cases f2 with
      | zero => simp at h2
      | succ f2p =>
        simp only [utf8DecodeF]
        cases hs : utf8DecodeStep b rest with
        | none => rfl
        | some cr =>
          obtain ⟨c, rest2⟩ := cr
          have hle := utf8DecodeStep_shrink b rest c rest2 hs
          show (utf8DecodeF f rest2).map (fun s => c :: s) =
            (utf8DecodeF f2p rest2).map (fun s => c :: s)
          rw [ih f2p rest2 (by simp at h1; omega) (by simp at h2; omega)]

theorem utf8Decode_cons_ascii (b : Nat) (l : Bytes) (hb : b < 128) :
    utf8Decode (b :: l) = (utf8Decode l).map (fun s => Char.ofNat b :: s) := by
  unfold utf8Decode
  simp only [List.length_cons, utf8DecodeF]
  rw [utf8DecodeStep_ascii b l hb]

theorem utf8Decode_ascii_append (a t : Bytes) (h : ∀ x ∈ a, x < 128) :
    utf8Decode (a ++ t) = (utf8Decode t).map (fun s => a.map Char.ofNat ++ s) := by
  induction a with
  | nil =>
    rw [List.nil_append]
    cases utf8Decode t <;> simp
  | cons b bs ih =>
    rw [show ((b :: bs) ++ t) = b :: (bs ++ t) from rfl]
    rw [utf8Decode_cons_ascii b (bs ++ t) (h b (by simp))]
    rw [ih (fun x hx => h x (by simp [hx]))]
    cases utf8Decode t <;> rfl

/-! ### Read-loop lemmas -/

theorem handleLoop_dispatch (rootFolder : Str) (fs fs2 : Fs) (buf c : Bytes)
    (rest : List Bytes) (s : Str) (out : List Bytes)
    (hc : c ≠ []) (hdec : utf8Decode (buf ++ c) = some s)
    (hterm : containsSub crlfcrlf s = true)
    (hproc : processRequest s rootFolder fs = .ok (fs2, out)) :
    handleLoop rootFolder fs buf (c :: rest) =
      ⟨out :: (handleLoop rootFolder fs2 [] rest).responses,
        (handleLoop rootFolder fs2 [] rest).fs,
        (handleLoop rootFolder fs2 [] rest).err⟩ := by
  simp only [handleLoop, if_neg hc, hdec, hterm, hproc]
  simp

theorem handleLoop_error (rootFolder : Str) (fs : Fs) (buf c : Bytes)
    (rest : List Bytes) (s : Str) (e : PyErr)
    (hc : c ≠ []) (hdec : utf8Decode (buf ++ c) = some s)
    (hterm : containsSub crlfcrlf s = true)
    (hproc : processRequest s rootFolder fs = .error e) :
    handleLoop rootFolder fs buf (c :: rest) = ⟨[], fs, some e⟩ := by
  simp only [handleLoop, if_neg hc, hdec, hterm, hproc]
  simp

theorem handleLoop_skip (rootFolder : Str) (fs : Fs) (buf c : Bytes)
    (rest : List Bytes) (s : Str)
    (hc : c ≠ []) (hdec : utf8Decode (buf ++ c) = some s)
    (hterm : containsSub crlfcrlf s = false) :
    handleLoop rootFolder fs buf (c :: rest) =
      handleLoop rootFolder fs (buf ++ c) rest := by
  simp only [handleLoop, if_neg hc, hdec, hterm]
  rfl

theorem handleLoop_assemble (rootFolder : Str) (s : Str) (fs2 : Fs) (out : List Bytes) :
    ∀ (cs : List Bytes) (buf : Bytes) (fs : Fs),
    (∀ c ∈ cs, c ≠ []) → cs ≠ [] →
    (∀ i, i + 1 < cs.length → ∃ t, utf8Decode (buf ++ (cs.take (i + 1)).flatten) = some t ∧
        containsSub crlfcrlf t = false) →
    utf8Decode (buf ++ cs.flatten) = some s →
    containsSub crlfcrlf s = true →
    processRequest s rootFolder fs = .ok (fs2, out) →
    handleLoop rootFolder fs buf cs = ⟨[out], fs2, none⟩
  | [], _, _, _, hne, _, _, _, _ => absurd rfl hne
  | [c], buf, fs, hcs, _, _, hfull, hterm, hproc => by
    have hc : c ≠ [] := hcs c (by simp)
    have hdec : utf8Decode (buf ++ c) = some s := by simpa using hfull
    rw [handleLoop_dispatch rootFolder fs fs2 buf c [] s out hc hdec hterm hproc]
    rfl
  | c :: c2 :: cs2, buf, fs, hcs, _, hpre, hfull, hterm, hproc => by
    have hc : c ≠ [] := hcs c (by simp)
    obtain ⟨t, hdec, hnoterm⟩ := by
      have := hpre 0 (by simp)
      simpa using this
    rw [handleLoop_skip rootFolder fs buf c (c2 :: cs2) t hc hdec hnoterm]
    apply handleLoop_assemble rootFolder s fs2 out (c2 :: cs2) (buf ++ c) fs
    · intro d hd; exact hcs d (by simp [hd])
    · simp
    · intro i hi
      have := hpre (i + 1) (by simpa using hi)
      simpa [List.append_assoc] using this
    · simpa [List.append_assoc] using hfull
    · exact hterm
    · exact hproc

/-! ### The GET dispatch paths of process_request -/

theorem processRequest_get_found (rootFolder p tail rest : Str) (fs : Fs) (content : Bytes)
    (hp : ' ' ∉ p) (hpr : '\r' ∉ p) (ht : '\r' ∉ tail)
    (hslash : p ≠ strOf "/")
    (hfile : lookupFs fs (rootFolder ++ p) = some content) :
    processRequest (strOf "GET" ++ spaceStr ++ p ++ spaceStr ++ tail ++ crlf ++ rest)
        rootFolder fs =
      .ok (fs, utf8Encode (statusOk ++ contentLengthLine content.length) ::
        chunksOf 1024 content) := by
  have hparse := parse_requestLine (strOf "GET") p tail rest (by decide) (by decide) hpr ht
  simp only [processRequest, hparse, firstPiece_space p tail hp]
  rw [if_neg (by decide : ¬ strOf "GET" = strOf "POST")]
  rw [if_neg (by decide : ¬ strOf "GET" ≠ strOf "GET")]
  rw [if_neg hslash]
  rw [hfile]
  simp [sendResponse, hfile, Except.map]

theorem processRequest_get_missing (rootFolder p tail rest : Str) (fs : Fs) (c404 : Bytes)
    (hp : ' ' ∉ p) (hpr : '\r' ∉ p) (ht : '\r' ∉ tail)
    (hslash : p ≠ strOf "/")
    (hmiss : lookupFs fs (rootFolder ++ p) = none)
    (hfb : lookupFs fs (rootFolder ++ strOf "/404.html") = some c404) :
    processRequest (strOf "GET" ++ spaceStr ++ p ++ spaceStr ++ tail ++ crlf ++ rest)
        rootFolder fs =
      .ok (fs, utf8Encode (statusNotFound ++ contentLengthLine c404.length) ::
        chunksOf 1024 c404) := by
  have hparse := parse_requestLine (strOf "GET") p tail rest (by decide) (by decide) hpr ht
  simp only [processRequest, hparse, firstPiece_space p tail hp]
  rw [if_neg (by decide : ¬ strOf "GET" = strOf "POST")]
  rw [if_neg (by decide : ¬ strOf "GET" ≠ strOf "GET")]
  rw [if_neg hslash]
  rw [hmiss]
  simp [sendResponse, hfb, Except.map]

theorem processRequest_get_root (rootFolder tail rest : Str) (fs : Fs) (cpage : Bytes)
    (ht : '\r' ∉ tail)
    (hpage : lookupFs fs (rootFolder ++ strOf "/page.html") = some cpage) :
    processRequest (strOf "GET" ++ spaceStr ++ strOf "/" ++ spaceStr ++ tail ++ crlf ++ rest)
        rootFolder fs =
      .ok (fs, utf8Encode (statusOk ++ contentLengthLine cpage.length) ::
        chunksOf 1024 cpage) := by
  have hparse := parse_requestLine (strOf "GET") (strOf "/") tail rest
    (by decide) (by decide) (by decide) ht
  simp only [processRequest, hparse, firstPiece_space (strOf "/") tail (by decide)]
  rw [if_neg (by decide : ¬ strOf "GET" = strOf "POST")]
  rw [if_neg (by decide : ¬ strOf "GET" ≠ strOf "GET")]
  simp [sendResponse, hpage, Except.map]

/-! ### Concrete scenarios used by witnesses and counterexamples -/

def wwwRoot : Str := strOf "www/"

/-- A root directory holding only the fallback file 404.html (one byte). -/
def fs404 : Fs := [(strOf "www//404.html", [52])]

/-- A root directory holding only page.html (one byte). -/
def fsPage : Fs := [(strOf "www//page.html", [80])]

/-- A root directory holding page.html and 404.html with distinct bytes. -/
def fsPage404 : Fs := [(strOf "www//page.html", [80]), (strOf "www//404.html", [52])]

/-- The payloads of a 404 response serving the one-byte fallback file. -/
def out404 : List Bytes := [utf8Encode (statusNotFound ++ contentLengthLine 1), [52]]

/-- A 1024-byte recv result whose last byte is the first byte of the
two-byte UTF-8 encoding of U+00E9. -/
def c9chunk1 : Bytes := utf8Encode (strOf "GET /") ++ List.replicate 1018 97 ++ [195]

/-- The rest of the same request: the continuation byte and the tail of the
request line, ending in the header terminator. -/
def c9chunk2 : Bytes := 169 :: utf8Encode (strOf " HTTP/1.1\r\n\r\n")

/-- What the two chunks decode to when taken together. -/
def c9full : Str :=
  strOf "GET /" ++ List.replicate 1018 'a' ++ Char.ofNat 233 :: strOf " HTTP/1.1\r\n\r\n"

theorem c9ascii : ∀ x ∈ utf8Encode (strOf "GET /") ++ List.replicate 1018 97, x < 128 := by
  intro x hx
  rcases List.mem_append.mp hx with hx | hx
  · rw [show utf8Encode (strOf "GET /") = [71, 69, 84, 32, 47] by decide] at hx
    simp at hx
    rcases hx with h | h | h | h | h <;> omega
  · rw [List.eq_of_mem_replicate hx]
    omega

theorem c9_decode_none : utf8Decode c9chunk1 = none := by
  unfold c9chunk1
  rw [show utf8Encode (strOf "GET /") ++ List.replicate 1018 97 ++ [195] =
    (utf8Encode (strOf "GET /") ++ List.replicate 1018 97) ++ [195] by simp]
  rw [utf8Decode_ascii_append _ _ c9ascii]
  rw [show utf8Decode [195] = none by decide]
  rfl

theorem c9_decode_full : utf8Decode (c9chunk1 ++ c9chunk2) = some c9full := by
  unfold c9chunk1 c9chunk2
  rw [show (utf8Encode (strOf "GET /") ++ List.replicate 1018 97 ++ [195]) ++
      (169 :: utf8Encode (strOf " HTTP/1.1\r\n\r\n")) =
    (utf8Encode (strOf "GET /") ++ List.replicate 1018 97) ++
      (195 :: 169 :: utf8Encode (strOf " HTTP/1.1\r\n\r\n")) by simp]
  rw [utf8Decode_ascii_append _ _ c9ascii]
  rw [show utf8Decode (195 :: 169 :: utf8Encode (strOf " HTTP/1.1\r\n\r\n")) =
    some (Char.ofNat 233 :: strOf " HTTP/1.1\r\n\r\n") by decide]
  rw [List.map_append, List.map_replicate]
  rw [show List.map Char.ofNat (utf8Encode (strOf "GET /")) = strOf "GET /" by decide]
  rw [show Char.ofNat 97 = 'a' by decide]
  unfold c9full
  simp [List.append_assoc]

theorem c9_terminator : containsSub crlfcrlf c9full = true := by
  unfold c9full
  rw [show strOf " HTTP/1.1\r\n\r\n" = strOf " HTTP/1.1" ++ crlfcrlf by decide]
  rw [show strOf "GET /" ++ List.replicate 1018 'a' ++
      Char.ofNat 233 :: (strOf " HTTP/1.1" ++ crlfcrlf) =
    (strOf "GET /" ++ List.replicate 1018 'a' ++ Char.ofNat 233 :: strOf " HTTP/1.1") ++
      crlfcrlf ++ [] by simp]
  exact containsSub_parts crlfcrlf _ [] (by simp [crlfcrlf])

theorem c9chunk1_length : c9chunk1.length = 1024 := by
  have h5 : (utf8Encode (strOf "GET /")).length = 5 := by decide
  simp [c9chunk1, h5]

/-! ### The claims -/

/-- C1: for every GET request whose path names an existing regular file F
under the root (a path other than "/", which never names a regular file),
the response's first payload is the status line HTTP/1.1 200 OK followed by
a Content-Length header equal to F's exact byte size, and the streamed body
chunks concatenate to F's bytes exactly (round-trip identity). -/
theorem C1_get_existing_file_roundtrip (rootFolder p tail rest : Str) (fs : Fs)
    (content : Bytes)
    (hp : ' ' ∉ p) (hpr : '\r' ∉ p) (ht : '\r' ∉ tail)
    (hslash : p ≠ strOf "/")
    (hfile : lookupFs fs (rootFolder ++ p) = some content) :
    processRequest (strOf "GET" ++ spaceStr ++ p ++ spaceStr ++ tail ++ crlf ++ rest)
        rootFolder fs =
      .ok (fs, utf8Encode (statusOk ++ contentLengthLine content.length) ::
        chunksOf 1024 content) ∧
    (chunksOf 1024 content).flatten = content :=
  ⟨processRequest_get_found rootFolder p tail rest fs content hp hpr ht hslash hfile,
   chunksOf_flatten 1024 content⟩

/-- Witness for C1 at a concrete request: GET /x.html over a root that holds
the three-byte file www//x.html. -/
theorem C1_witness :
    processRequest (strOf "GET" ++ spaceStr ++ strOf "/x.html" ++ spaceStr ++
        strOf "HTTP/1.1" ++ crlf ++ []) wwwRoot [(strOf "www//x.html", [1, 2, 3])] =
      .ok ([(strOf "www//x.html", [1, 2, 3])],
        utf8Encode (statusOk ++ contentLengthLine 3) :: chunksOf 1024 [1, 2, 3]) ∧
    (chunksOf 1024 [1, 2, 3]).flatten = [1, 2, 3] :=
  C1_get_existing_file_roundtrip wwwRoot (strOf "/x.html") (strOf "HTTP/1.1") []
    [(strOf "www//x.html", [1, 2, 3])] [1, 2, 3]
    (by decide) (by decide) (by decide) (by decide) (by decide)

/-- C2 (the code at the claimed behaviour's failing input): for a request
whose method is neither GET nor POST the code chooses (405, None), and
send_response then evaluates root_folder + None, raising TypeError before
anything is sent; the per-connection handler catches it, so no 405 response
(and no response at all) reaches the client. -/
theorem C2_unsupported_method_no_response (rootFolder m w rest : Str) (fs : Fs) (c : Bytes)
    (hm1 : m ≠ strOf "GET") (hm2 : m ≠ strOf "POST")
    (hmsp : ' ' ∉ m) (hmr : '\r' ∉ m) (hw : '\r' ∉ w)
    (hdec : utf8Decode c = some (m ++ spaceStr ++ w ++ crlfcrlf ++ rest)) :
    processRequest (m ++ spaceStr ++ w ++ crlfcrlf ++ rest) rootFolder fs =
      .error .typeError ∧
    handleClientRequest rootFolder fs [c] = ⟨[], fs, some PyErr.typeError⟩ := by
  have ha : '\r' ∉ m ++ spaceStr ++ w := by
    intro hx
    simp only [List.mem_append, spaceStr, List.mem_singleton] at hx
    rcases hx with ((hx | hx) | hx)
    · exact hmr hx
    · exact absurd hx (by decide)
    · exact hw hx
  have hline : firstPiece crlf (m ++ spaceStr ++ w ++ crlfcrlf ++ rest) =
      m ++ spaceStr ++ w := by
    rw [show m ++ spaceStr ++ w ++ crlfcrlf ++ rest =
      (m ++ spaceStr ++ w) ++ crlf ++ (crlf ++ rest) by simp [crlfcrlf, crlf]]
    exact firstPiece_crlf (m ++ spaceStr ++ w) (crlf ++ rest) ha
  have hmethod : breakOn spaceStr (firstPiece crlf (m ++ spaceStr ++ w ++ crlfcrlf ++ rest)) =
      some (m, w) := by
    rw [hline]
    exact breakOn_space m w hmsp
  have hmain : processRequest (m ++ spaceStr ++ w ++ crlfcrlf ++ rest) rootFolder fs =
      .error .typeError := by
    simp only [processRequest, hmethod]
    rw [if_neg hm2]
    rw [if_pos hm1]
    simp [sendResponse, Except.map]
  refine ⟨hmain, ?_⟩
  have hreqne : m ++ spaceStr ++ w ++ crlfcrlf ++ rest ≠ [] := by simp [crlfcrlf]
  have hcne : c ≠ [] := by
    intro hcc
    subst hcc
    rw [show utf8Decode [] = some [] from rfl] at hdec
    exact hreqne (Option.some.inj hdec).symm
  have hterm : containsSub crlfcrlf (m ++ spaceStr ++ w ++ crlfcrlf ++ rest) = true := by
    rw [show m ++ spaceStr ++ w ++ crlfcrlf ++ rest =
      (m ++ spaceStr ++ w) ++ crlfcrlf ++ rest by simp]
    exact containsSub_parts crlfcrlf (m ++ spaceStr ++ w) rest (by simp [crlfcrlf])
  unfold handleClientRequest
  exact handleLoop_error rootFolder fs [] c [] _ PyErr.typeError hcne
    (by simpa using hdec) hterm hmain

/-- Witness for C2 at the failing input DELETE /x HTTP/1.1: TypeError is
raised and the connection is dropped with no bytes sent. -/
theorem C2_witness :
    processRequest (strOf "DELETE" ++ spaceStr ++ strOf "/x HTTP/1.1" ++ crlfcrlf ++ [])
        wwwRoot fs404 = .error .typeError ∧
    handleClientRequest wwwRoot fs404 [utf8Encode (strOf "DELETE /x HTTP/1.1\r\n\r\n")] =
      ⟨[], fs404, some PyErr.typeError⟩ :=
  C2_unsupported_method_no_response wwwRoot (strOf "DELETE") (strOf "/x HTTP/1.1") [] fs404
    (utf8Encode (strOf "DELETE /x HTTP/1.1\r\n\r\n"))
    (by decide) (by decide) (by decide) (by decide) (by decide) (by decide)

/-- C3: a POST request is split on the first double-CRLF into headers and
body; the body's bytes are written verbatim (via UTF-8 encoding, inverse of
the decode that produced the request text) to the file at root plus the
second space-separated token of the headers, and the reply is the single
payload HTTP/1.1 201 Created with no body and no Content-Length header. -/
theorem C3_post_writes_body_bare_201 (rootFolder p tail body : Str) (fs : Fs)
    (hp : ' ' ∉ p)
    (hc : containsSub crlfcrlf (strOf "POST" ++ spaceStr ++ p ++ spaceStr ++ tail) = false)
    (hs : endsWith crlf (strOf "POST" ++ spaceStr ++ p ++ spaceStr ++ tail) = false) :
    processRequest (strOf "POST" ++ spaceStr ++ p ++ spaceStr ++ tail ++ crlfcrlf ++ body)
        rootFolder fs =
      .ok ((rootFolder ++ p, utf8Encode body) :: fs, [utf8Encode statusCreated]) ∧
    lookupFs ((rootFolder ++ p, utf8Encode body) :: fs) (rootFolder ++ p) =
      some (utf8Encode body) := by
  constructor
  · have hline : firstPiece crlf
        (strOf "POST" ++ spaceStr ++ p ++ spaceStr ++ tail ++ crlfcrlf ++ body) =
        strOf "POST" ++ spaceStr ++
          firstPiece crlf (p ++ spaceStr ++ tail ++ crlfcrlf ++ body) := by
      rw [show strOf "POST" ++ spaceStr ++ p ++ spaceStr ++ tail ++ crlfcrlf ++ body =
        (strOf "POST" ++ spaceStr) ++ (p ++ spaceStr ++ tail ++ crlfcrlf ++ body) by simp]
      rw [firstPiece_left_crlf _ _ (by decide)]
      try simp
    have hmethod : breakOn spaceStr (firstPiece crlf
        (strOf "POST" ++ spaceStr ++ p ++ spaceStr ++ tail ++ crlfcrlf ++ body)) =
        some (strOf "POST", firstPiece crlf (p ++ spaceStr ++ tail ++ crlfcrlf ++ body)) := by
      rw [hline]
      exact breakOn_space (strOf "POST") _ (by decide)
    have hsplit : breakOn crlfcrlf
        (strOf "POST" ++ spaceStr ++ p ++ spaceStr ++ tail ++ crlfcrlf ++ body) =
        some (strOf "POST" ++ spaceStr ++ p ++ spaceStr ++ tail, body) :=
      breakOn_crlfcrlf (strOf "POST" ++ spaceStr ++ p ++ spaceStr ++ tail) body hc hs
    have htoks : breakOn spaceStr (strOf "POST" ++ spaceStr ++ p ++ spaceStr ++ tail) =
        some (strOf "POST", p ++ spaceStr ++ tail) := by
      rw [show strOf "POST" ++ spaceStr ++ p ++ spaceStr ++ tail =
        strOf "POST" ++ spaceStr ++ (p ++ spaceStr ++ tail) by simp]
      exact breakOn_space (strOf "POST") _ (by decide)
    simp only [processRequest, hmethod]
    rw [if_pos trivial]
    simp only [handlePostRequest, hsplit, htoks, firstPiece_space p tail hp]
  · simp [lookupFs]

/-- Witness for C3: POST /upload.txt with a Host header and body hello
world creates www//upload.txt holding exactly those bytes and answers with
the bare 201 line (the spec's own example). -/
theorem C3_witness :
    processRequest (strOf "POST" ++ spaceStr ++ strOf "/upload.txt" ++ spaceStr ++
        strOf "HTTP/1.1\r\nHost: h" ++ crlfcrlf ++ strOf "hello world") wwwRoot [] =
      .ok ([(wwwRoot ++ strOf "/upload.txt", utf8Encode (strOf "hello world"))],
        [utf8Encode statusCreated]) ∧
    lookupFs [(wwwRoot ++ strOf "/upload.txt", utf8Encode (strOf "hello world"))]
        (wwwRoot ++ strOf "/upload.txt") = some (utf8Encode (strOf "hello world")) :=
  C3_post_writes_body_bare_201 wwwRoot (strOf "/upload.txt") (strOf "HTTP/1.1\r\nHost: h")
    (strOf "hello world") [] (by decide) (by decide) (by decide)

/-- C4: when the file chosen by the dispatcher does not exist at send time,
send_response serves the fallback file's bytes with the fallback's
Content-Length while the status line stays whatever header the dispatcher
chose, so a 200 status line can be paired with the 404 page's body. -/
theorem C4_fallback_body_keeps_status (rootFolder filePath header : Str) (fs : Fs)
    (c404 : Bytes)
    (hmiss : lookupFs fs (rootFolder ++ filePath) = none)
    (hfb : lookupFs fs (rootFolder ++ strOf "/404.html") = some c404) :
    sendResponse (some filePath) header rootFolder fs =
      .ok (utf8Encode (header ++ contentLengthLine c404.length) :: chunksOf 1024 c404) ∧
    (chunksOf 1024 c404).flatten = c404 := by
  refine ⟨?_, chunksOf_flatten 1024 c404⟩
  simp only [sendResponse, hmiss, hfb]

/-- Witness for C4: a vanished target under a 200 header: the response
pairs the HTTP/1.1 200 OK status line with the 404 page's bytes. -/
theorem C4_witness :
    sendResponse (some (strOf "/gone.html")) statusOk wwwRoot fs404 =
      .ok (utf8Encode (statusOk ++ contentLengthLine 1) :: chunksOf 1024 [52]) ∧
    (chunksOf 1024 [52]).flatten = [52] :=
  C4_fallback_body_keeps_status wwwRoot (strOf "/gone.html") statusOk fs404 [52]
    (by decide) (by decide)

/-- C5 counterexample: the path "/" does not resolve to an existing regular
file (there is no entry at root ++ "/"), yet the response to GET / is 200
with page.html's byte, not 404 with 404.html's byte, so the claim fails as
stated at the input GET / HTTP/1.1. -/
theorem C5_counterexample :
    lookupFs fsPage404 (wwwRoot ++ strOf "/") = none ∧
    processRequest (strOf "GET / HTTP/1.1\r\n\r\n") wwwRoot fsPage404 =
      .ok (fsPage404, [utf8Encode (statusOk ++ contentLengthLine 1), [80]]) ∧
    [utf8Encode (statusOk ++ contentLengthLine 1), [80]] ≠
      [utf8Encode (statusNotFound ++ contentLengthLine 1), [52]] :=
  ⟨rfl, rfl, by decide⟩

/-- C5 as amended: for every GET request whose path is not "/" and does not
resolve to an existing regular file under the root, provided the fallback
file 404.html exists under the root, the response status line is HTTP/1.1
404 Not Found and its body is exactly the bytes of 404.html. -/
theorem C5_amended_missing_file_404 (rootFolder p tail rest : Str) (fs : Fs) (c404 : Bytes)
    (hp : ' ' ∉ p) (hpr : '\r' ∉ p) (ht : '\r' ∉ tail)
    (hslash : p ≠ strOf "/")
    (hmiss : lookupFs fs (rootFolder ++ p) = none)
    (hfb : lookupFs fs (rootFolder ++ strOf "/404.html") = some c404) :
    processRequest (strOf "GET" ++ spaceStr ++ p ++ spaceStr ++ tail ++ crlf ++ rest)
        rootFolder fs =
      .ok (fs, utf8Encode (statusNotFound ++ contentLengthLine c404.length) ::
        chunksOf 1024 c404) ∧
    (chunksOf 1024 c404).flatten = c404 :=
  ⟨processRequest_get_missing rootFolder p tail rest fs c404 hp hpr ht hslash hmiss hfb,
   chunksOf_flatten 1024 c404⟩

/-- Witness for the amended C5: GET /nope.html over a root holding only
404.html yields the 404 status line with the fallback's body. -/
theorem C5_witness :
    processRequest (strOf "GET" ++ spaceStr ++ strOf "/nope.html" ++ spaceStr ++
        strOf "HTTP/1.1" ++ crlf ++ []) wwwRoot fs404 =
      .ok (fs404, utf8Encode (statusNotFound ++ contentLengthLine 1) :: chunksOf 1024 [52]) ∧
    (chunksOf 1024 [52]).flatten = [52] :=
  C5_amended_missing_file_404 wwwRoot (strOf "/nope.html") (strOf "HTTP/1.1") [] fs404 [52]
    (by decide) (by decide) (by decide) (by decide) (by decide) (by decide)

/-- C6 counterexample: in a state where page.html is missing but 404.html
exists, GET / answers 200 (with the fallback body) while GET /page.html
answers 404 (with the same body): the statuses differ, so the responses are
not the same for every server state. -/
theorem C6_counterexample :
    processRequest (strOf "GET / HTTP/1.1\r\n\r\n") wwwRoot fs404 =
      .ok (fs404, [utf8Encode (statusOk ++ contentLengthLine 1), [52]]) ∧
    processRequest (strOf "GET /page.html HTTP/1.1\r\n\r\n") wwwRoot fs404 =
      .ok (fs404, [utf8Encode (statusNotFound ++ contentLengthLine 1), [52]]) ∧
    utf8Encode (statusOk ++ contentLengthLine 1) ≠
      utf8Encode (statusNotFound ++ contentLengthLine 1) :=
  ⟨rfl, rfl, by decide⟩

/-- C6 as amended: whenever page.html exists under the root, a GET request
for "/" returns exactly the same response (status and body) as the same GET
request for "/page.html". -/
theorem C6_amended_root_equals_page (rootFolder tail rest : Str) (fs : Fs) (cpage : Bytes)
    (ht : '\r' ∉ tail)
    (hpage : lookupFs fs (rootFolder ++ strOf "/page.html") = some cpage) :
    processRequest (strOf "GET" ++ spaceStr ++ strOf "/" ++ spaceStr ++ tail ++ crlf ++ rest)
        rootFolder fs =
      processRequest (strOf "GET" ++ spaceStr ++ strOf "/page.html" ++ spaceStr ++ tail ++
        crlf ++ rest) rootFolder fs :=
  (processRequest_get_root rootFolder tail rest fs cpage ht hpage).trans
    (processRequest_get_found rootFolder (strOf "/page.html") tail rest fs cpage
      (by decide) (by decide) ht (by decide) hpage).symm

/-- Witness for the amended C6 at a root that holds page.html. -/
theorem C6_witness :
    processRequest (strOf "GET" ++ spaceStr ++ strOf "/" ++ spaceStr ++ strOf "HTTP/1.1" ++
        crlf ++ []) wwwRoot fsPage =
      processRequest (strOf "GET" ++ spaceStr ++ strOf "/page.html" ++ spaceStr ++
        strOf "HTTP/1.1" ++ crlf ++ []) wwwRoot fsPage :=
  C6_amended_root_equals_page wwwRoot (strOf "HTTP/1.1") [] fsPage [80]
    (by decide) (by decide)

/-- C7: the read loop dispatches exactly one response per detected
double-CRLF terminator and resets the buffer to empty after the dispatch
(first part), and a request whose bytes arrive split across several socket
reads, none of whose proper prefixes already shows the terminator, is fully
assembled in the buffer and dispatched once as a whole (second part). -/
theorem C7_one_response_per_terminator :
    (∀ (rootFolder : Str) (fs fs2 : Fs) (buf c : Bytes) (rest : List Bytes)
      (s : Str) (out : List Bytes),
      c ≠ [] → utf8Decode (buf ++ c) = some s → containsSub crlfcrlf s = true →
      processRequest s rootFolder fs = .ok (fs2, out) →
      handleLoop rootFolder fs buf (c :: rest) =
        ⟨out :: (handleLoop rootFolder fs2 [] rest).responses,
          (handleLoop rootFolder fs2 [] rest).fs,
          (handleLoop rootFolder fs2 [] rest).err⟩) ∧
    (∀ (rootFolder : Str) (fs fs2 : Fs) (cs : List Bytes) (s : Str) (out : List Bytes),
      (∀ c ∈ cs, c ≠ []) → cs ≠ [] →
      (∀ i, i + 1 < cs.length → ∃ t, utf8Decode ((cs.take (i + 1)).flatten) = some t ∧
          containsSub crlfcrlf t = false) →
      utf8Decode cs.flatten = some s → containsSub crlfcrlf s = true →
      processRequest s rootFolder fs = .ok (fs2, out) →
      handleClientRequest rootFolder fs cs = ⟨[out], fs2, none⟩) :=
  ⟨fun rootFolder fs fs2 buf c rest s out hc hdec hterm hproc =>
    handleLoop_dispatch rootFolder fs fs2 buf c rest s out hc hdec hterm hproc,
   fun rootFolder fs fs2 cs s out hne hne2 hpre hfull hterm hproc =>
    handleLoop_assemble rootFolder s fs2 out cs [] fs hne hne2
      (by simpa using hpre) (by simpa using hfull) hterm hproc⟩

/-- Witness for C7: a GET request arriving in two reads, the terminator
completed only by the second, is assembled and answered by one response. -/
theorem C7_witness :
    handleClientRequest wwwRoot fs404
        [utf8Encode (strOf "GET /x HTTP/1.1\r\n"), utf8Encode (strOf "\r\n")] =
      ⟨[out404], fs404, none⟩ :=
  C7_one_response_per_terminator.2 wwwRoot fs404 fs404
    [utf8Encode (strOf "GET /x HTTP/1.1\r\n"), utf8Encode (strOf "\r\n")]
    (strOf "GET /x HTTP/1.1\r\n\r\n") out404
    (by decide) (by decide)
    (by
      intro i hi
      have hi2 : i + 1 < 2 := by simpa using hi
      have hi0 : i = 0 := by omega
      subst hi0
      exact ⟨strOf "GET /x HTTP/1.1\r\n", by decide, by decide⟩)
    (by decide) (by decide) (by rfl)

/-- C8: a request whose first line has fewer than two space-separated
tokens (no space before the first CRLF) makes the request-line unpacking
raise, the error propagates out of process_request, and the coarse
per-connection handler catches it: no response is sent and the connection
handling stops with the error recorded. -/
theorem C8_malformed_request_line_dropped (rootFolder req : Str) (fs : Fs) (c : Bytes)
    (hline : breakOn spaceStr (firstPiece crlf req) = none)
    (hdec : utf8Decode c = some req)
    (hterm : containsSub crlfcrlf req = true)
    (hc : c ≠ []) :
    processRequest req rootFolder fs = .error .valueError ∧
    handleClientRequest rootFolder fs [c] = ⟨[], fs, some PyErr.valueError⟩ := by
  have hmain : processRequest req rootFolder fs = .error .valueError := by
    simp only [processRequest, hline]
  refine ⟨hmain, ?_⟩
  unfold handleClientRequest
  exact handleLoop_error rootFolder fs [] c [] req PyErr.valueError hc
    (by simpa using hdec) hterm hmain

/-- Witness for C8 at the one-token request line FOO. -/
theorem C8_witness :
    processRequest (strOf "FOO\r\n\r\n") wwwRoot fs404 = .error .valueError ∧
    handleClientRequest wwwRoot fs404 [utf8Encode (strOf "FOO\r\n\r\n")] =
      ⟨[], fs404, some PyErr.valueError⟩ :=
  C8_malformed_request_line_dropped wwwRoot (strOf "FOO\r\n\r\n") fs404
    (utf8Encode (strOf "FOO\r\n\r\n")) (by decide) (by decide) (by decide) (by decide)

/-- C9: a concrete request split at the 1024-byte read boundary inside a
two-byte UTF-8 character: the first chunk is exactly 1024 bytes and does
not decode, although the two chunks together decode to a valid terminated
request; the per-iteration decode in the read loop raises before the
terminator is ever detected, so no response is produced and the error is
recorded: the decode is not total over arbitrary received bytes. -/
theorem C9_decode_failure_split_boundary (rootFolder : Str) (fs : Fs) :
    c9chunk1.length = 1024 ∧
    utf8Decode c9chunk1 = none ∧
    utf8Decode (c9chunk1 ++ c9chunk2) = some c9full ∧
    containsSub crlfcrlf c9full = true ∧
    handleClientRequest rootFolder fs [c9chunk1, c9chunk2] =
      ⟨[], fs, some PyErr.unicodeDecodeError⟩ := by
  refine ⟨c9chunk1_length, c9_decode_none, c9_decode_full, c9_terminator, ?_⟩
  have hne : c9chunk1 ≠ [] := by simp [c9chunk1]
  unfold handleClientRequest
  simp only [handleLoop, if_neg hne, List.nil_append, c9_decode_none]

/-- C10: when the terminator is detected, the whole accumulated buffer,
including the bytes of a second pipelined request already received after
the terminator, is decoded and dispatched as one request, and the reset
then discards the entire buffer: the continuation runs from an empty
buffer, so the second request is never served from those bytes (here the
leftover tail of the second request fails on its own). -/
theorem C10_pipelined_bytes_discarded (rootFolder : Str) (fs fs2 : Fs)
    (r1 extra c2 : Bytes) (s s2 : Str) (out : List Bytes) (e : PyErr)
    (h1 : r1 ++ extra ≠ [])
    (h2 : utf8Decode (r1 ++ extra) = some s)
    (h3 : containsSub crlfcrlf s = true)
    (h4 : processRequest s rootFolder fs = .ok (fs2, out))
    (h5 : utf8Decode c2 = some s2) (h6 : c2 ≠ [])
    (h7 : containsSub crlfcrlf s2 = true)
    (h8 : processRequest s2 rootFolder fs2 = .error e) :
    (∀ rest, handleLoop rootFolder fs [] ((r1 ++ extra) :: rest) =
      ⟨out :: (handleLoop rootFolder fs2 [] rest).responses,
        (handleLoop rootFolder fs2 [] rest).fs,
        (handleLoop rootFolder fs2 [] rest).err⟩) ∧
    handleClientRequest rootFolder fs [r1 ++ extra, c2] = ⟨[out], fs2, some e⟩ := by
  have hstep := fun rest => handleLoop_dispatch rootFolder fs fs2 [] (r1 ++ extra) rest
    s out h1 (by simpa using h2) h3 h4
  refine ⟨hstep, ?_⟩
  unfold handleClientRequest
  rw [hstep [c2]]
  rw [handleLoop_error rootFolder fs2 [] c2 [] s2 e h6 (by simpa using h5) h7 h8]

/-- Witness for C10: the first chunk carries a whole GET request plus the
first line of a second one; the dispatched request is the whole decoded
buffer, the leftover first line is discarded with the reset, and the second
request's remaining bytes alone are malformed, so it is never served. -/
theorem C10_witness :
    handleClientRequest wwwRoot fs404
        [utf8Encode (strOf "GET /x HTTP/1.1\r\n\r\n") ++ utf8Encode (strOf "GET /y HTTP/1.1"),
          utf8Encode (strOf "\r\n\r\n")] =
      ⟨[out404], fs404, some PyErr.valueError⟩ :=
  (C10_pipelined_bytes_discarded wwwRoot fs404 fs404
    (utf8Encode (strOf "GET /x HTTP/1.1\r\n\r\n")) (utf8Encode (strOf "GET /y HTTP/1.1"))
    (utf8Encode (strOf "\r\n\r\n"))
    (strOf "GET /x HTTP/1.1\r\n\r\nGET /y HTTP/1.1") (strOf "\r\n\r\n")
    out404 PyErr.valueError
    (by decide) (by decide) (by decide) (by rfl)
    (by decide) (by decide) (by decide) (by rfl)).2
